import Mathlib

/-!
Verification development for the data-preparation core of the invoice-analysis
app (`app.py`, function `carregar_e_preparar_dados`).

The function loads two CSV sources with `pd.read_csv(sep=',', decimal='.')`,
discovers a join key by scanning the fixed candidate list `['NÚMERO']` for a
name present in both tables, converts the header columns `DataEmissao` and
`DataEntrada` (when present) with `pd.to_datetime`, and left-joins the items
table onto the header table with `pd.merge(df_itens, df_cabecalho,
on=coluna_chave, how='left')`.  On the no-key path it calls `st.error` and
returns `None`; on the exception path it calls `st.error` and returns
`(None, None)`.

The pandas operations the function relies on are modelled at the level of
their documented contracts: a cell is a missing value, a string, a rational
number (numeric columns are inferred when every present field of the column
parses as a number using the configured decimal character), or a date.
CSV quoting, duplicate-column mangling and scientific notation are not
exercised by any claim and are not modelled.
-/

namespace AgenteNF

/-- A cell of a loaded table: missing (NaN/NaT), a raw string, an inferred
numeric value, or a normalized date. -/
inductive Cell where
  | na : Cell
  | str (v : String) : Cell
  | numv (q : ℚ) : Cell
  | date (y m d : Nat) : Cell
  deriving DecidableEq, Repr

/-- An in-memory table: named columns and rows of cells, row cells positionally
aligned with the column list. -/
structure DataFrame where
  cols : List String
  rows : List (List Cell)
  deriving DecidableEq, Repr

/-- Well-formedness: every row has exactly one cell per column. -/
def WF (df : DataFrame) : Prop :=
  ∀ r ∈ df.rows, r.length = df.cols.length

instance (df : DataFrame) : Decidable (WF df) := by
  unfold WF; infer_instance

/-- Split a character list at every occurrence of `sep` (the pieces, in order,
with separators removed; n separators yield n+1 pieces). -/
def splitListOn (sep : Char) : List Char → List (List Char)
  | [] => [[]]
  | c :: t =>
    if c = sep then [] :: splitListOn sep t
    else
      match splitListOn sep t with
      | [] => [[c]]
      | a :: rest => (c :: a) :: rest

/-- Numeric value of a digit string (most significant digit first). -/
def digitsVal (ds : List Char) : Nat :=
  ds.foldl (fun acc c => acc * 10 + (c.toNat - 48)) 0

/-- Split a character list at the first occurrence of `mark`: the part before
it and, when found, the part after it. -/
def breakAtChar (mark : Char) : List Char → List Char × Option (List Char)
  | [] => ([], none)
  | c :: t =>
    if c = mark then ([], some t)
    else
      match breakAtChar mark t with
      | (a, b) => (c :: a, b)

/-- Modelled contract of the pandas numeric-field reader with decimal
character `dec`: an optional sign, digits, and at most one `dec` between the
integer and fractional digits; at least one digit overall.  The value is
returned as a rational. -/
def parseNumQ (dec : Char) (s : String) : Option ℚ :=
  let cs := s.toList
  let signBody : Bool × List Char :=
    match cs with
    | '-' :: t => (true, t)
    | '+' :: t => (false, t)
    | t => (false, t)
  let neg := signBody.1
  let body := signBody.2
  match breakAtChar dec body with
  | (ip, none) =>
    if ip ≠ [] ∧ ip.all Char.isDigit then
      some (if neg then -(digitsVal ip : ℚ) else (digitsVal ip : ℚ))
    else none
  | (ip, some fp) =>
    if (ip ≠ [] ∨ fp ≠ []) ∧ ip.all Char.isDigit ∧ fp.all Char.isDigit ∧
        fp.all (· ≠ dec) then
      let q : ℚ := (digitsVal ip : ℚ) + (digitsVal fp : ℚ) / ((10 : ℚ) ^ fp.length)
      some (if neg then -q else q)
    else none

/-- Modelled contract of `pd.to_datetime` on a well-formed textual date:
ISO `yyyy-mm-dd` with all-digit components and in-range month and day
(month-length and leap-year refinements are not exercised by any claim). -/
def parseDate (s : String) : Option (Nat × Nat × Nat) :=
  match splitListOn '-' s.toList with
  | [ys, ms, ds] =>
    if ys ≠ [] ∧ ms ≠ [] ∧ ds ≠ [] ∧
        ys.all Char.isDigit ∧ ms.all Char.isDigit ∧ ds.all Char.isDigit then
      let m := digitsVal ms
      let d := digitsVal ds
      if 1 ≤ m ∧ m ≤ 12 ∧ 1 ≤ d ∧ d ≤ 31 then some (digitsVal ys, m, d)
      else none
    else none
  | _ => none

/-- Pad a row of raw fields to the table width `n`, after dropping the `k`
leading index fields (pandas' implicit-index rule, see `parseCSV`): empty
fields are missing values, short rows are filled with missing values, and a
row wider than the expected `k + n` fields is a tokenizer error (the pandas C
parser raises in that case). -/
def padRow (n k : Nat) (flds : List (List Char)) : Except String (List (Option String)) :=
  let body := flds.drop k
  if n < body.length then
    .error "Error tokenizing data: a data row has more fields than expected"
  else
    .ok ((body.map (fun f => if f.isEmpty then none else some (String.mk f))) ++
      List.replicate (n - body.length) none)

/-- Pad every data row, stopping at the first tokenizer error. -/
def padRows (n k : Nat) : List (List (List Char)) → Except String (List (List (Option String)))
  | [] => .ok []
  | r :: rs =>
    match padRow n k r with
    | .error e => .error e
    | .ok r' =>
      match padRows n k rs with
      | .error e => .error e
      | .ok rs' => .ok (r' :: rs')

/-- Modelled pandas column-type inference: a column is numeric when every
present field parses as a number with the configured decimal character. -/
def colIsNum (dec : Char) (vals : List (Option String)) : Bool :=
  vals.all fun v =>
    match v with
    | none => true
    | some s => (parseNumQ dec s).isSome

/-- Build the cell for one field under the column's inferred type. -/
def mkCell (dec : Char) (isnum : Bool) : Option String → Cell
  | none => .na
  | some v =>
    if isnum then
      match parseNumQ dec v with
      | some q => .numv q
      | none => .str v
    else .str v

/-- Modelled contract of `pd.read_csv(src, sep, decimal)`: the first non-blank
line holds the column names, every later non-blank line is a data row split on
`sep`; empty fields are missing values; a column whose present fields all
parse numerically (decimal character `dec`) becomes a numeric column.  An
empty source is an error, as in pandas.  When the first data row has more
fields than the header, pandas' implicit-index rule applies ("Index columns
and trailing delimiters"): the leading extra fields of every row form the row
index and the parse succeeds; the index takes no part in the merge, so index
fields are dropped here.  A data row wider than that expected width is a
tokenizer error, as in the pandas C parser. -/
def parseCSV (sep dec : Char) (src : String) : Except String DataFrame :=
  let lines := (splitListOn '\x0a' src.toList).filter (fun l => !l.isEmpty)
  match lines with
  | [] => .error "No columns to parse from file"
  | headerLine :: dataLines =>
    let cols := (splitListOn sep headerLine).map String.mk
    let n := cols.length
    let fieldRows := dataLines.map (splitListOn sep)
    let k := match fieldRows with
      | [] => 0
      | f :: _ => f.length - n
    match padRows n k fieldRows with
    | .error e => .error e
    | .ok tbl =>
      let numFlags := (List.range n).map fun j =>
        colIsNum dec (tbl.map (fun r => r.getD j none))
      .ok { cols := cols
            rows := tbl.map fun r =>
              (List.range n).map fun j => mkCell dec (numFlags.getD j false) (r.getD j none) }

/-- The CSV read performed by `carregar_e_preparar_dados` on each source:
`pd.read_csv(arquivo, sep=',', decimal='.')` (app.py lines 15-16). -/
def read_nf (src : String) : Except String DataFrame := parseCSV ',' '.' src

/-- Value of the first column named `name` in `row`, walking the column list
and the row cells in step; missing columns and missing cells read as `na`. -/
def getCellAux : List String → List Cell → String → Cell
  | [], _, _ => .na
  | _ :: _, [], _ => .na
  | c :: cs, v :: vs, name => if c = name then v else getCellAux cs vs name

/-- Value of column `name` in a row of `df`. -/
def getCell (df : DataFrame) (row : List Cell) (name : String) : Cell :=
  getCellAux df.cols row name

/-- The column `name` of `df`, as the list of its per-row values. -/
def keyVals (df : DataFrame) (name : String) : List Cell :=
  df.rows.map fun r => getCellAux df.cols r name

/-- Modelled contract of `pd.to_datetime` on one cell: missing stays missing
(NaT), a date stays itself, a string must parse as a date or the call raises.
A numeric cell is treated as unparseable here: pandas would reinterpret a
numeric column as epoch instants, a behavior no claim exercises, and the
recognized date columns of this app are textual. -/
def convertCell : Cell → Except String Cell
  | .na => .ok .na
  | .date y m d => .ok (.date y m d)
  | .str s =>
    match parseDate s with
    | some (y, m, d) => .ok (.date y m d)
    | none => .error ("time data " ++ s ++ " does not match a recognized date format")
  | .numv _ => .error "cannot convert a numeric column to datetime in this model"

/-- Convert the cell of the first column named `name` in one row; other cells
are untouched. -/
def convertRowAux : List String → List Cell → String → Except String (List Cell)
  | [], vs, _ => .ok vs
  | _ :: _, [], _ => .ok []
  | c :: cs, v :: vs, name =>
    if c = name then
      match convertCell v with
      | .error e => .error e
      | .ok v' => .ok (v' :: vs)
    else
      match convertRowAux cs vs name with
      | .error e => .error e
      | .ok vs' => .ok (v :: vs')

/-- Convert column `name` in every row, stopping at the first failure. -/
def convertRows (cols : List String) (name : String) : List (List Cell) → Except String (List (List Cell))
  | [] => .ok []
  | r :: rs =>
    match convertRowAux cols r name with
    | .error e => .error e
    | .ok r' =>
      match convertRows cols name rs with
      | .error e => .error e
      | .ok rs' => .ok (r' :: rs')

/-- Modelled `df[name] = pd.to_datetime(df[name])`. -/
def toDatetimeCol (df : DataFrame) (name : String) : Except String DataFrame :=
  match convertRows df.cols name df.rows with
  | .error e => .error e
  | .ok rs => .ok { cols := df.cols, rows := rs }

/-- The date-normalization step of `carregar_e_preparar_dados` (app.py lines
37-40): convert `DataEmissao` and then `DataEntrada`, each only when present
among the header columns. -/
def normalizeDates (df : DataFrame) : Except String DataFrame :=
  match (if "DataEmissao" ∈ df.cols then toDatetimeCol df "DataEmissao" else .ok df) with
  | .error e => .error e
  | .ok df1 =>
    if "DataEntrada" ∈ df1.cols then toDatetimeCol df1 "DataEntrada" else .ok df1

/-- A cell a successfully normalized date column may hold: a date or missing. -/
def isDateLike : Cell → Bool
  | .date _ _ _ => true
  | .na => true
  | _ => false

/-- Cells of a right-table row at the columns other than the join key. -/
def dropKeyAux : List String → List Cell → String → List Cell
  | [], _, _ => []
  | _ :: _, [], _ => []
  | c :: cs, v :: vs, key =>
    if c = key then dropKeyAux cs vs key else v :: dropKeyAux cs vs key

/-- Header rows whose join-key cell equals `v`. -/
def rowMatches (r : DataFrame) (key : String) (v : Cell) : List (List Cell) :=
  r.rows.filter fun hrow => decide (getCellAux r.cols hrow key = v)

/-- Concatenation of `f` over a row list (the row expansion of a join). -/
def catMapRows (f : List Cell → List (List Cell)) : List (List Cell) → List (List Cell)
  | [] => []
  | r :: rs => f r ++ catMapRows f rs

/-- Modelled contract of `pd.merge(l, r, on=key, how='left')`: every left row,
in order, paired with each right row whose key cell matches; a left row with
no match is padded with missing values for the right-only columns.  (Pandas
suffixes shared non-key column names with `_x`/`_y`; no claim exercises shared
non-key columns, and the suffixing is not modelled.) -/
def mergeLeft (l r : DataFrame) (key : String) : DataFrame :=
  { cols := l.cols ++ r.cols.filter (fun c => decide (c ≠ key))
    rows := catMapRows
      (fun lrow =>
        match rowMatches r key (getCellAux l.cols lrow key) with
        | [] => [lrow ++ List.replicate (r.cols.filter (fun c => decide (c ≠ key))).length Cell.na]
        | m :: ms => (m :: ms).map fun hrow => lrow ++ dropKeyAux r.cols hrow key)
      l.rows }

/-- The fixed candidate join-key names (app.py line 24). -/
def colunas_candidatas : List String := ["NÚMERO"]

/-- The key-discovery loop (app.py lines 26-29): the first candidate that is a
column of both tables. -/
def findKey (dfc dfi : DataFrame) : Option String :=
  colunas_candidatas.find? fun col => decide (col ∈ dfc.cols) && decide (col ∈ dfi.cols)

/-- Python truthiness of the discovered key (`if not coluna_chave`, app.py
line 31): `None` and the empty string are falsy. -/
def pyFalsy : Option String → Bool
  | none => true
  | some s => s = ""

/-- The `st.error` message of the no-key path (app.py line 32). -/
def msgNoKey : String :=
  "Erro: Não foi possível encontrar uma coluna em comum para unir os arquivos. Verifique se ambos possuem uma coluna como \x27ChaveNF\x27 ou \x27ID_NF\x27."

/-- The `st.error` message of the exception path (app.py line 48). -/
def msgLoad (e : String) : String :=
  "Ocorreu um erro ao carregar ou processar os arquivos: " ++ e

/-- Outcome of `carregar_e_preparar_dados`: success with the merged table and
the key, the no-key failure (`return None`), or the exception path
(`return None, None`) with its cause. -/
inductive MergeResult where
  | ok (df : DataFrame) (key : String) : MergeResult
  | noKey : MergeResult
  | loadErr (cause : String) : MergeResult
  deriving DecidableEq, Repr

/-- The body of `carregar_e_preparar_dados` after both CSV reads succeeded
(app.py lines 23-45), paired with the list of `st.error` messages emitted. -/
def prepareFromFrames (df_cabecalho df_itens : DataFrame) : MergeResult × List String :=
  let coluna_chave := findKey df_cabecalho df_itens
  if pyFalsy coluna_chave then (.noKey, [msgNoKey])
  else
    let key := coluna_chave.getD ""
    match normalizeDates df_cabecalho with
    | .error e => (.loadErr e, [msgLoad e])
    | .ok c2 => (.ok (mergeLeft df_itens c2 key) key, [])

/-- `carregar_e_preparar_dados(arquivo_cabecalho, arquivo_itens)` (app.py
lines 8-49): read both CSVs (header first), then discover the key, normalize
the date columns and left-join; any raised parse error lands on the exception
path.  The second component is the list of `st.error` messages emitted. -/
def carregar_e_preparar_dados (arquivo_cabecalho arquivo_itens : String) : MergeResult × List String :=
  match read_nf arquivo_cabecalho with
  | .error e => (.loadErr e, [msgLoad e])
  | .ok df_cabecalho =>
    match read_nf arquivo_itens with
    | .error e => (.loadErr e, [msgLoad e])
    | .ok df_itens => prepareFromFrames df_cabecalho df_itens

/-- Shape of a Python value returned by `carregar_e_preparar_dados`, as seen
by the caller that unpacks it (app.py line 106). -/
inductive PyVal where
  | pynone : PyVal
  | tuple2 (a b : PyVal) : PyVal
  | dfv (df : DataFrame) : PyVal
  | strv (s : String) : PyVal
  deriving DecidableEq, Repr

/-- The Python value each outcome returns: `df_completo, coluna_chave` on
success (line 45), `None` on the no-key path (line 33), `None, None` on the
exception path (line 49). -/
def returnedValue : MergeResult → PyVal
  | .ok df k => .tuple2 (.dfv df) (.strv k)
  | .noKey => .pynone
  | .loadErr _ => .tuple2 .pynone .pynone

/-- The caller's two-value unpacking `df_completo, chave = ...` (app.py line
106): succeeds only on a pair; unpacking `None` raises a `TypeError`. -/
def unpack2 : PyVal → Option (PyVal × PyVal)
  | .tuple2 a b => some (a, b)
  | _ => none

/-- Whether a returned Python value contains a table anywhere inside. -/
def containsTable : PyVal → Bool
  | .dfv _ => true
  | .tuple2 a b => containsTable a || containsTable b
  | _ => false

/-- The merged table of a successful outcome. -/
def mergedOf : MergeResult → Option DataFrame
  | .ok df _ => some df
  | _ => none

/-- The join key of a successful outcome. -/
def keyOf : MergeResult → Option String
  | .ok _ k => some k
  | _ => none

/-- Cell of column `col` in row `j` of a successful outcome's merged table. -/
def cellAt (m : MergeResult) (j : Nat) (col : String) : Cell :=
  match m with
  | .ok df _ => getCellAux df.cols (df.rows.getD j []) col
  | _ => .na

/-- Cell of column `col` in the first row of a parse result. -/
def firstCellOf (r : Except String DataFrame) (col : String) : Cell :=
  match r with
  | .ok df => getCellAux df.cols (df.rows.getD 0 []) col
  | .error _ => .na

/-- Whether `pat` occurs at the start of `s`. -/
def startsWithChars : List Char → List Char → Bool
  | _, [] => true
  | [], _ :: _ => false
  | a :: as, b :: bs => a == b && startsWithChars as bs

/-- Whether `pat` occurs anywhere in `s`. -/
def occursInChars (pat : List Char) : List Char → Bool
  | [] => pat.isEmpty
  | a :: t => startsWithChars (a :: t) pat || occursInChars pat t

/-- Whether the message `msg` names `pat` (as a contiguous substring). -/
def mentions (msg pat : String) : Bool :=
  occursInChars pat.toList msg.toList

/-- Whether a cell holds an inferred numeric value. -/
def isNumCell : Cell → Bool
  | .numv _ => true
  | _ => false

/-- Whether an outcome is the exception path. -/
def isLoadErr : MergeResult → Bool
  | .loadErr _ => true
  | _ => false

instance : DecidableEq (Except String DataFrame) := fun a b =>
  match a, b with
  | .ok x, .ok y =>
    if h : x = y then .isTrue (by rw [h]) else .isFalse fun hc => h (Except.ok.inj hc)
  | .error x, .error y =>
    if h : x = y then .isTrue (by rw [h]) else .isFalse fun hc => h (Except.error.inj hc)
  | .ok _, .error _ => .isFalse fun hc => Except.noConfusion hc
  | .error _, .ok _ => .isFalse fun hc => Except.noConfusion hc

/-- Header CSV with a duplicated join-key value (two header rows share
NÚMERO = 1). -/
def dupH : String := "NÚMERO,Fornecedor\x0a1,a\x0a1,b"

/-- Items CSV with a single row, keyed NÚMERO = 1. -/
def dupI : String := "NÚMERO,Produto\x0a1,x"

/-- Header CSV with unique join-key values. -/
def uniH : String := "NÚMERO,Fornecedor\x0a1,a"

/-- Items CSV with two rows, one matched and one unmatched. -/
def uniI : String := "NÚMERO,Produto\x0a1,x\x0a2,y"

/-- The table `uniH` parses to. -/
def uniHdf : DataFrame :=
  { cols := ["NÚMERO", "Fornecedor"], rows := [[Cell.numv 1, Cell.str "a"]] }

/-- The table `uniI` parses to. -/
def uniIdf : DataFrame :=
  { cols := ["NÚMERO", "Produto"],
    rows := [[Cell.numv 1, Cell.str "x"], [Cell.numv 2, Cell.str "y"]] }

/-- The merged table of `uniH` and `uniI`. -/
def uniMdf : DataFrame :=
  { cols := ["NÚMERO", "Produto", "Fornecedor"],
    rows := [[Cell.numv 1, Cell.str "x", Cell.str "a"],
             [Cell.numv 2, Cell.str "y", Cell.na]] }

/-- A header table carrying the join key and one extra shared column name. -/
def kdC : DataFrame := { cols := ["NÚMERO", "Fornecedor", "Extra"], rows := [] }

/-- An items table carrying the join key and the same extra column name. -/
def kdI : DataFrame := { cols := ["NÚMERO", "Produto", "Extra"], rows := [] }

/-- A header table without any candidate join-key column. -/
def nkC : DataFrame := { cols := ["A"], rows := [[Cell.str "1"]] }

/-- An items table without any candidate join-key column. -/
def nkI : DataFrame := { cols := ["B"], rows := [[Cell.str "2"]] }

/-- A header table whose single row is keyed NÚMERO = "1". -/
def umC : DataFrame :=
  { cols := ["NÚMERO", "Fornecedor"], rows := [[Cell.str "1", Cell.str "ACME"]] }

/-- An items table whose single row is keyed NÚMERO = "2", matching no header
row. -/
def umI : DataFrame :=
  { cols := ["NÚMERO", "Produto"], rows := [[Cell.str "2", Cell.str "G"]] }

/-- The merged table of `umC` and `umI`: the unmatched item row survives with
a missing `Fornecedor`. -/
def umM : DataFrame :=
  { cols := ["NÚMERO", "Produto", "Fornecedor"],
    rows := [[Cell.str "2", Cell.str "G", Cell.na]] }

/-- A header table whose `DataEmissao` column holds an unparseable date. -/
def bdC : DataFrame :=
  { cols := ["NÚMERO", "DataEmissao"], rows := [[Cell.str "1", Cell.str "bad"]] }

/-- An items table sharing the join key with `bdC`. -/
def bdI : DataFrame := { cols := ["NÚMERO"], rows := [[Cell.str "1"]] }

/-- A CSV source whose first data field is numeric only under a period
decimal separator. -/
def decProbe : String := "A,B\x0a1.5,2"

/-- The header CSV of the concrete scenario of the spec. -/
def scenH : String := "NÚMERO,Fornecedor,ValorTotal\x0a1,ACME,100.00"

/-- The items CSV of the concrete scenario of the spec. -/
def scenI : String := "NÚMERO,Produto,Quantidade\x0a1,Widget,2\x0a2,Gadget,1"

/-- A header CSV sharing no column name with `noShareI`. -/
def noShareH : String := "A\x0a1"

/-- An items CSV sharing no column name with `noShareH`. -/
def noShareI : String := "B\x0a2"

/-- The table `noShareH` parses to. -/
def noShareHdf : DataFrame := { cols := ["A"], rows := [[Cell.numv 1]] }

/-- The table `noShareI` parses to. -/
def noShareIdf : DataFrame := { cols := ["B"], rows := [[Cell.numv 2]] }

/-- Reading a column that lies past a fully aligned block of other columns
skips that block. -/
theorem getCellAux_append_right (cols1 cols2 : List String) (r1 r2 : List Cell)
    (name : String) (hnot : name ∉ cols1) (hlen : r1.length = cols1.length) :
    getCellAux (cols1 ++ cols2) (r1 ++ r2) name = getCellAux cols2 r2 name := by
  induction cols1 generalizing r1 with
  | nil =>
    have : r1 = [] := List.length_eq_zero.mp hlen
    subst this; rfl
  | cons c cs ih =>
    cases r1 with
    | nil => simp at hlen
    | cons v vs =>
      have hne : c ≠ name := fun h => hnot (h ▸ List.mem_cons_self _ _)
      simp only [List.cons_append, getCellAux, if_neg hne]
      exact ih vs (fun h => hnot (List.mem_cons_of_mem _ h)) (by simpa using hlen)

/-- Reading any column out of an all-missing row yields a missing value. -/
theorem getCellAux_all_na (cols : List String) (row : List Cell) (name : String)
    (h : ∀ x ∈ row, x = Cell.na) :
    getCellAux cols row name = Cell.na := by
  induction cols generalizing row with
  | nil => rfl
  | cons c cs ih =>
    cases row with
    | nil => rfl
    | cons v vs =>
      simp only [getCellAux]
      split
      · exact h v (List.mem_cons_self _ _)
      · exact ih vs fun x hx => h x (List.mem_cons_of_mem _ hx)

/-- A successful single-cell date conversion yields a date or a missing value. -/
theorem convertCell_ok_dateLike (v w : Cell) (h : convertCell v = .ok w) :
    isDateLike w = true := by
  cases v with
  | na => injection h with h; rw [← h]; rfl
  | date y m d => injection h with h; rw [← h]; rfl
  | numv q => simp [convertCell] at h
  | str s =>
    simp only [convertCell] at h
    cases hp : parseDate s with
    | none => rw [hp] at h; simp at h
    | some t =>
      obtain ⟨y, m, d⟩ := t
      rw [hp] at h
      injection h with h
      rw [← h]; rfl

/-- After a successful row conversion, the converted column reads date-like. -/
theorem convertRowAux_ok_dateLike (cols : List String) (row row' : List Cell) (name : String)
    (h : convertRowAux cols row name = .ok row') (hmem : name ∈ cols) :
    isDateLike (getCellAux cols row' name) = true := by
  induction cols generalizing row row' with
  | nil => simp at hmem
  | cons c cs ih =>
    cases row with
    | nil =>
      simp only [convertRowAux] at h
      injection h with h
      rw [← h]
      cases cs <;> rfl
    | cons v vs =>
      simp only [convertRowAux] at h
      by_cases hc : c = name
      · rw [if_pos hc] at h
        cases hcv : convertCell v with
        | error e => rw [hcv] at h; simp at h
        | ok v' =>
          rw [hcv] at h
          injection h with h
          rw [← h]
          simp only [getCellAux, if_pos hc]
          exact convertCell_ok_dateLike v v' hcv
      · rw [if_neg hc] at h
        cases hr : convertRowAux cs vs name with
        | error e => rw [hr] at h; simp at h
        | ok vs' =>
          rw [hr] at h
          injection h with h
          rw [← h]
          simp only [getCellAux, if_neg hc]
          exact ih vs vs' hr ((List.mem_cons.mp hmem).resolve_left fun hh => hc hh.symm)

/-- A successful row conversion leaves every other column's value unchanged. -/
theorem convertRowAux_ok_other (cols : List String) (row row' : List Cell) (name n2 : String)
    (h : convertRowAux cols row name = .ok row') (hne : n2 ≠ name) :
    getCellAux cols row' n2 = getCellAux cols row n2 := by
  induction cols generalizing row row' with
  | nil =>
    simp only [convertRowAux] at h
    injection h with h
    rw [← h]
  | cons c cs ih =>
    cases row with
    | nil =>
      simp only [convertRowAux] at h
      injection h with h
      rw [← h]
    | cons v vs =>
      simp only [convertRowAux] at h
      by_cases hc : c = name
      · rw [if_pos hc] at h
        cases hcv : convertCell v with
        | error e => rw [hcv] at h; simp at h
        | ok v' =>
          rw [hcv] at h
          injection h with h
          rw [← h]
          have hcn : c ≠ n2 := by rw [hc]; exact fun hh => hne hh.symm
          simp only [getCellAux, if_neg hcn]
      · rw [if_neg hc] at h
        cases hr : convertRowAux cs vs name with
        | error e => rw [hr] at h; simp at h
        | ok vs' =>
          rw [hr] at h
          injection h with h
          rw [← h]
          by_cases hcn : c = n2
          · simp only [getCellAux, if_pos hcn]
          · simp only [getCellAux, if_neg hcn]
            exact ih vs vs' hr

/-- A textual cell that is not a well-formed date makes the row conversion
fail. -/
theorem convertRowAux_error_of_bad (cols : List String) (row : List Cell) (name s : String)
    (hget : getCellAux cols row name = Cell.str s) (hbad : parseDate s = none) :
    ∃ e, convertRowAux cols row name = .error e := by
  induction cols generalizing row with
  | nil => simp [getCellAux] at hget
  | cons c cs ih =>
    cases row with
    | nil => simp [getCellAux] at hget
    | cons v vs =>
      by_cases hc : c = name
      · simp only [getCellAux, if_pos hc] at hget
        subst hget
        refine ⟨"time data " ++ s ++ " does not match a recognized date format", ?_⟩
        simp only [convertRowAux, if_pos hc, convertCell, hbad]
      · simp only [getCellAux, if_neg hc] at hget
        obtain ⟨e, he⟩ := ih vs hget
        exact ⟨e, by simp only [convertRowAux, if_neg hc, he]⟩

/-- Every row of a successful column conversion comes from a successful row
conversion of some input row. -/
theorem convertRows_ok_mem (cols : List String) (name : String) (rows rs : List (List Cell))
    (h : convertRows cols name rows = .ok rs) :
    ∀ r' ∈ rs, ∃ r ∈ rows, convertRowAux cols r name = .ok r' := by
  induction rows generalizing rs with
  | nil =>
    simp only [convertRows] at h
    injection h with h
    rw [← h]
    intro r' hr'
    simp at hr'
  | cons r rstl ih =>
    simp only [convertRows] at h
    cases ha : convertRowAux cols r name with
    | error e => rw [ha] at h; simp at h
    | ok r0 =>
      rw [ha] at h
      cases hb : convertRows cols name rstl with
      | error e => rw [hb] at h; simp at h
      | ok rs0 =>
        rw [hb] at h
        injection h with h
        rw [← h]
        intro r' hr'
        rcases List.mem_cons.mp hr' with h1 | h1
        · exact ⟨r, List.mem_cons_self _ _, by rw [ha, h1]⟩
        · obtain ⟨r2, hr2, hcv⟩ := ih rs0 hb r' h1
          exact ⟨r2, List.mem_cons_of_mem _ hr2, hcv⟩

/-- A successful column conversion preserves every other column, as a list of
per-row values. -/
theorem convertRows_ok_map (cols : List String) (name n2 : String) (rows rs : List (List Cell))
    (h : convertRows cols name rows = .ok rs) (hne : n2 ≠ name) :
    rs.map (fun r => getCellAux cols r n2) = rows.map (fun r => getCellAux cols r n2) := by
  induction rows generalizing rs with
  | nil =>
    simp only [convertRows] at h
    injection h with h
    rw [← h]
  | cons r rstl ih =>
    simp only [convertRows] at h
    cases ha : convertRowAux cols r name with
    | error e => rw [ha] at h; simp at h
    | ok r0 =>
      rw [ha] at h
      cases hb : convertRows cols name rstl with
      | error e => rw [hb] at h; simp at h
      | ok rs0 =>
        rw [hb] at h
        injection h with h
        rw [← h]
        simp only [List.map_cons]
        rw [convertRowAux_ok_other cols r r0 name n2 ha hne, ih rs0 hb]

/-- A bad textual date anywhere in the column makes the column conversion
fail. -/
theorem convertRows_error_of_bad (cols : List String) (name : String) (rows : List (List Cell))
    (h : ∃ r ∈ rows, ∃ s, getCellAux cols r name = Cell.str s ∧ parseDate s = none) :
    ∃ e, convertRows cols name rows = .error e := by
  induction rows with
  | nil => simp at h
  | cons r rstl ih =>
    rcases h with ⟨r0, hr0, s, hget, hbad⟩
    rcases List.mem_cons.mp hr0 with h1 | h1
    · obtain ⟨e, he⟩ := convertRowAux_error_of_bad cols r name s (by rw [← h1]; exact hget) hbad
      exact ⟨e, by simp only [convertRows, he]⟩
    · cases ha : convertRowAux cols r name with
      | error e => exact ⟨e, by simp only [convertRows, ha]⟩
      | ok r' =>
        obtain ⟨e, he⟩ := ih ⟨r0, h1, s, hget, hbad⟩
        exact ⟨e, by simp only [convertRows, ha, he]⟩

/-- A successful column-to-datetime conversion keeps the column names. -/
theorem toDatetimeCol_ok_cols (df df' : DataFrame) (name : String)
    (h : toDatetimeCol df name = .ok df') : df'.cols = df.cols := by
  unfold toDatetimeCol at h
  cases hc : convertRows df.cols name df.rows with
  | error e => rw [hc] at h; simp at h
  | ok rs =>
    rw [hc] at h
    injection h with h
    rw [← h]

/-- A successful column-to-datetime conversion preserves every other column's
values. -/
theorem toDatetimeCol_ok_keyVals (df df' : DataFrame) (name n2 : String)
    (h : toDatetimeCol df name = .ok df') (hne : n2 ≠ name) :
    keyVals df' n2 = keyVals df n2 := by
  unfold toDatetimeCol at h
  cases hc : convertRows df.cols name df.rows with
  | error e => rw [hc] at h; simp at h
  | ok rs =>
    rw [hc] at h
    injection h with h
    rw [← h]
    unfold keyVals
    exact convertRows_ok_map df.cols name n2 df.rows rs hc hne

/-- After a successful column-to-datetime conversion, the converted column is
date-like in every row. -/
theorem toDatetimeCol_ok_dateLike (df df' : DataFrame) (name : String)
    (h : toDatetimeCol df name = .ok df') (hmem : name ∈ df.cols) :
    ∀ r' ∈ df'.rows, isDateLike (getCellAux df'.cols r' name) = true := by
  unfold toDatetimeCol at h
  cases hc : convertRows df.cols name df.rows with
  | error e => rw [hc] at h; simp at h
  | ok rs =>
    rw [hc] at h
    injection h with h
    rw [← h]
    intro r' hr'
    obtain ⟨r, _, ha⟩ := convertRows_ok_mem df.cols name df.rows rs hc r' hr'
    exact convertRowAux_ok_dateLike df.cols r r' name ha hmem

/-- A bad textual date in the column makes the column-to-datetime conversion
fail. -/
theorem toDatetimeCol_error_of_bad (df : DataFrame) (name : String)
    (h : ∃ r ∈ df.rows, ∃ s, getCellAux df.cols r name = Cell.str s ∧ parseDate s = none) :
    ∃ e, toDatetimeCol df name = .error e := by
  obtain ⟨e, he⟩ := convertRows_error_of_bad df.cols name df.rows h
  exact ⟨e, by unfold toDatetimeCol; rw [he]⟩

/-- A property of a column's per-row values transfers along an equality of the
column value lists. -/
theorem keyVals_transfer (df1 df2 : DataFrame) (n : String) (P : Cell → Prop)
    (hkv : keyVals df2 n = keyVals df1 n)
    (h : ∀ r ∈ df1.rows, P (getCellAux df1.cols r n)) :
    ∀ r ∈ df2.rows, P (getCellAux df2.cols r n) := by
  intro r2 hr2
  have hmem : getCellAux df2.cols r2 n ∈ keyVals df2 n := List.mem_map_of_mem _ hr2
  rw [hkv] at hmem
  obtain ⟨r1, hr1, heq⟩ := List.mem_map.mp hmem
  rw [← heq]
  exact h r1 hr1

/-- A bad textual date in a column transfers along an equality of the column
value lists. -/
theorem badCell_transfer (df1 df2 : DataFrame) (n : String)
    (hkv : keyVals df2 n = keyVals df1 n)
    (h : ∃ r ∈ df1.rows, ∃ s, getCellAux df1.cols r n = Cell.str s ∧ parseDate s = none) :
    ∃ r ∈ df2.rows, ∃ s, getCellAux df2.cols r n = Cell.str s ∧ parseDate s = none := by
  obtain ⟨r1, hr1, s, hget, hbad⟩ := h
  have hmem : Cell.str s ∈ keyVals df2 n := by
    rw [hkv, ← hget]
    exact List.mem_map_of_mem _ hr1
  obtain ⟨r2, hr2, heq⟩ := List.mem_map.mp hmem
  exact ⟨r2, hr2, s, heq, hbad⟩

/-- Successful date normalization keeps the column names. -/
theorem normalizeDates_ok_cols (df df' : DataFrame)
    (h : normalizeDates df = .ok df') : df'.cols = df.cols := by
  unfold normalizeDates at h
  by_cases h1 : "DataEmissao" ∈ df.cols
  · rw [if_pos h1] at h
    cases hc : toDatetimeCol df "DataEmissao" with
    | error e => rw [hc] at h; simp at h
    | ok df1 =>
      rw [hc] at h
      dsimp only at h
      have hcols1 := toDatetimeCol_ok_cols df df1 _ hc
      by_cases h2 : "DataEntrada" ∈ df1.cols
      · rw [if_pos h2] at h
        exact (toDatetimeCol_ok_cols df1 df' _ h).trans hcols1
      · rw [if_neg h2] at h
        injection h with h
        rw [← h]; exact hcols1
  · rw [if_neg h1] at h
    dsimp only at h
    by_cases h2 : "DataEntrada" ∈ df.cols
    · rw [if_pos h2] at h
      exact toDatetimeCol_ok_cols df df' _ h
    · rw [if_neg h2] at h
      injection h with h
      rw [← h]

/-- Successful date normalization preserves every column other than the two
recognized date columns. -/
theorem normalizeDates_ok_keyVals (df df' : DataFrame) (n2 : String)
    (h : normalizeDates df = .ok df')
    (hE : n2 ≠ "DataEmissao") (hN : n2 ≠ "DataEntrada") :
    keyVals df' n2 = keyVals df n2 := by
  unfold normalizeDates at h
  by_cases h1 : "DataEmissao" ∈ df.cols
  · rw [if_pos h1] at h
    cases hc : toDatetimeCol df "DataEmissao" with
    | error e => rw [hc] at h; simp at h
    | ok df1 =>
      rw [hc] at h
      dsimp only at h
      have hkv1 := toDatetimeCol_ok_keyVals df df1 _ n2 hc hE
      by_cases h2 : "DataEntrada" ∈ df1.cols
      · rw [if_pos h2] at h
        exact (toDatetimeCol_ok_keyVals df1 df' _ n2 h hN).trans hkv1
      · rw [if_neg h2] at h
        injection h with h
        rw [← h]; exact hkv1
  · rw [if_neg h1] at h
    dsimp only at h
    by_cases h2 : "DataEntrada" ∈ df.cols
    · rw [if_pos h2] at h
      exact toDatetimeCol_ok_keyVals df df' _ n2 h hN
    · rw [if_neg h2] at h
      injection h with h
      rw [← h]

/-- After successful date normalization, each recognized date column that was
present is date-like in every row. -/
theorem normalizeDates_ok_dateLike (df df' : DataFrame) (col : String)
    (h : normalizeDates df = .ok df')
    (hcol : col = "DataEmissao" ∨ col = "DataEntrada") (hmem : col ∈ df.cols) :
    ∀ r ∈ df'.rows, isDateLike (getCellAux df'.cols r col) = true := by
  unfold normalizeDates at h
  rcases hcol with hcol | hcol
  · subst hcol
    rw [if_pos hmem] at h
    cases hc : toDatetimeCol df "DataEmissao" with
    | error e => rw [hc] at h; simp at h
    | ok df1 =>
      rw [hc] at h
      dsimp only at h
      have hdl1 := toDatetimeCol_ok_dateLike df df1 _ hc hmem
      by_cases h2 : "DataEntrada" ∈ df1.cols
      · rw [if_pos h2] at h
        have hkv := toDatetimeCol_ok_keyVals df1 df' _ "DataEmissao" h (by decide)
        exact keyVals_transfer df1 df' "DataEmissao" (fun x => isDateLike x = true) hkv hdl1
      · rw [if_neg h2] at h
        injection h with h
        rw [← h]; exact hdl1
  · subst hcol
    by_cases h1 : "DataEmissao" ∈ df.cols
    · rw [if_pos h1] at h
      cases hc : toDatetimeCol df "DataEmissao" with
      | error e => rw [hc] at h; simp at h
      | ok df1 =>
        rw [hc] at h
        dsimp only at h
        have hmem1 : "DataEntrada" ∈ df1.cols := by
          rw [toDatetimeCol_ok_cols df df1 _ hc]; exact hmem
        rw [if_pos hmem1] at h
        exact toDatetimeCol_ok_dateLike df1 df' _ h hmem1
    · rw [if_neg h1] at h
      dsimp only at h
      rw [if_pos hmem] at h
      exact toDatetimeCol_ok_dateLike df df' _ h hmem

/-- A bad textual date in a present recognized date column makes date
normalization fail. -/
theorem normalizeDates_error_of_bad (df : DataFrame) (col : String)
    (hcol : col = "DataEmissao" ∨ col = "DataEntrada") (hmem : col ∈ df.cols)
    (hbad : ∃ r ∈ df.rows, ∃ s, getCellAux df.cols r col = Cell.str s ∧ parseDate s = none) :
    ∃ e, normalizeDates df = .error e := by
  rcases hcol with hcol | hcol
  · subst hcol
    obtain ⟨e, he⟩ := toDatetimeCol_error_of_bad df "DataEmissao" hbad
    exact ⟨e, by unfold normalizeDates; rw [if_pos hmem, he]⟩
  · subst hcol
    by_cases h1 : "DataEmissao" ∈ df.cols
    · cases hc : toDatetimeCol df "DataEmissao" with
      | error e => exact ⟨e, by unfold normalizeDates; rw [if_pos h1, hc]⟩
      | ok df1 =>
        have hkv := toDatetimeCol_ok_keyVals df df1 _ "DataEntrada" hc (by decide)
        have hbad1 := badCell_transfer df df1 "DataEntrada" hkv hbad
        have hmem1 : "DataEntrada" ∈ df1.cols := by
          rw [toDatetimeCol_ok_cols df df1 _ hc]; exact hmem
        obtain ⟨e, he⟩ := toDatetimeCol_error_of_bad df1 "DataEntrada" hbad1
        refine ⟨e, ?_⟩
        unfold normalizeDates
        rw [if_pos h1, hc]
        dsimp only
        rw [if_pos hmem1, he]
    · obtain ⟨e, he⟩ := toDatetimeCol_error_of_bad df "DataEntrada" hbad
      refine ⟨e, ?_⟩
      unfold normalizeDates
      rw [if_neg h1]
      dsimp only
      rw [if_pos hmem, he]

/-- Anything produced from a member row is in the expanded row list. -/
theorem mem_catMapRows (f : List Cell → List (List Cell)) (rows : List (List Cell))
    (r x : List Cell) (hr : r ∈ rows) (hx : x ∈ f r) :
    x ∈ catMapRows f rows := by
  induction rows with
  | nil => simp at hr
  | cons a t ih =>
    simp only [catMapRows, List.mem_append]
    rcases List.mem_cons.mp hr with h1 | h1
    · exact .inl (by rw [← h1]; exact hx)
    · exact .inr (ih h1)

/-- When every row expands to exactly one row, the expansion preserves the row
count. -/
theorem length_catMapRows_of_one (f : List Cell → List (List Cell)) (rows : List (List Cell))
    (h : ∀ r ∈ rows, (f r).length = 1) :
    (catMapRows f rows).length = rows.length := by
  induction rows with
  | nil => rfl
  | cons a t ih =>
    simp only [catMapRows, List.length_append, List.length_cons]
    rw [h a (List.mem_cons_self _ _), ih fun r hr => h r (List.mem_cons_of_mem _ hr)]
    omega

/-- Under a duplicate-free key column, at most one row matches any key value. -/
theorem length_filter_le_one (l : List (List Cell)) (g : List Cell → Cell) (v : Cell)
    (h : (l.map g).Nodup) :
    (l.filter fun x => decide (g x = v)).length ≤ 1 := by
  induction l with
  | nil => simp
  | cons a t ih =>
    simp only [List.map_cons, List.nodup_cons] at h
    by_cases hv : g a = v
    · have htail : t.filter (fun x => decide (g x = v)) = [] := by
        rw [List.filter_eq_nil_iff]
        intro x hx
        simp only [decide_eq_true_eq]
        intro hgx
        have hxa : g x = g a := by rw [hgx, hv]
        exact h.1 (by rw [← hxa]; exact List.mem_map_of_mem g hx)
      simp [List.filter_cons, hv, htail]
    · simp only [List.filter_cons, decide_eq_true_eq, if_neg hv]
      exact ih h.2

/-- Key discovery succeeds exactly when the single candidate is a column of
both tables. -/
theorem findKey_some (c i : DataFrame) (h1 : "NÚMERO" ∈ c.cols) (h2 : "NÚMERO" ∈ i.cols) :
    findKey c i = some "NÚMERO" := by
  unfold findKey colunas_candidatas
  simp [List.find?, h1, h2]

/-- Key discovery fails when the single candidate is missing from either
table. -/
theorem findKey_none (c i : DataFrame) (h : ¬("NÚMERO" ∈ c.cols ∧ "NÚMERO" ∈ i.cols)) :
    findKey c i = none := by
  unfold findKey colunas_candidatas
  by_cases hc : "NÚMERO" ∈ c.cols
  · by_cases hi : "NÚMERO" ∈ i.cols
    · exact absurd ⟨hc, hi⟩ h
    · simp [List.find?, hc, hi]
  · simp [List.find?, hc]

/-- A discovered key is the candidate and lies in both tables. -/
theorem findKey_some_inv (c i : DataFrame) (k : String) (h : findKey c i = some k) :
    k = "NÚMERO" ∧ "NÚMERO" ∈ c.cols ∧ "NÚMERO" ∈ i.cols := by
  by_cases hc : "NÚMERO" ∈ c.cols
  · by_cases hi : "NÚMERO" ∈ i.cols
    · rw [findKey_some c i hc hi] at h
      exact ⟨(Option.some.inj h).symm, hc, hi⟩
    · rw [findKey_none c i fun hh => hi hh.2] at h
      exact Option.noConfusion h
  · rw [findKey_none c i fun hh => hc hh.1] at h
    exact Option.noConfusion h

/-- Inversion of a successful run of the post-parse pipeline: the key is the
candidate, no message is emitted, and the result is the left join of the items
table with the date-normalized header table. -/
theorem prepare_ok_inv (c i df : DataFrame) (key : String) (ms : List String)
    (h : prepareFromFrames c i = (.ok df key, ms)) :
    key = "NÚMERO" ∧ "NÚMERO" ∈ c.cols ∧ "NÚMERO" ∈ i.cols ∧ ms = [] ∧
      ∃ c2, normalizeDates c = .ok c2 ∧ c2.cols = c.cols ∧ df = mergeLeft i c2 key := by
  unfold prepareFromFrames at h
  cases hf : findKey c i with
  | none => rw [hf] at h; simp [pyFalsy] at h
  | some k =>
    rw [hf] at h
    dsimp only at h
    obtain ⟨hk, hc, hi⟩ := findKey_some_inv c i k hf
    have hke : k ≠ "" := by rw [hk]; decide
    have hpf : pyFalsy (some k) = false := by simp [pyFalsy, hke]
    rw [hpf] at h
    simp only [Bool.false_eq_true, if_false, Option.getD_some] at h
    cases hn : normalizeDates c with
    | error e => rw [hn] at h; simp at h
    | ok c2 =>
      rw [hn] at h
      dsimp only at h
      simp only [Prod.mk.injEq, MergeResult.ok.injEq] at h
      obtain ⟨⟨hdf, hkey⟩, hms⟩ := h
      subst hkey
      refine ⟨hk, hc, hi, hms.symm, c2, rfl, normalizeDates_ok_cols c c2 hn, hdf.symm⟩

/-- Every run of `carregar_e_preparar_dados` lands in exactly one of the three
shapes: success with no message, the no-key failure with its message, or the
exception path with its message. -/
theorem carregar_shape (s1 s2 : String) :
    (∃ df k, carregar_e_preparar_dados s1 s2 = (.ok df k, [])) ∨
    carregar_e_preparar_dados s1 s2 = (.noKey, [msgNoKey]) ∨
    ∃ e, carregar_e_preparar_dados s1 s2 = (.loadErr e, [msgLoad e]) := by
  unfold carregar_e_preparar_dados
  cases h1 : read_nf s1 with
  | error e => exact .inr (.inr ⟨e, rfl⟩)
  | ok c =>
    cases h2 : read_nf s2 with
    | error e => exact .inr (.inr ⟨e, rfl⟩)
    | ok i =>
      unfold prepareFromFrames
      by_cases hp : pyFalsy (findKey c i) = true
      · refine .inr (.inl ?_)
        dsimp only
        rw [if_pos hp]
      · cases hn : normalizeDates c with
        | error e =>
          refine .inr (.inr ⟨e, ?_⟩)
          dsimp only
          rw [if_neg hp, hn]
        | ok c2 =>
          refine .inl ⟨mergeLeft i c2 ((findKey c i).getD ""), (findKey c i).getD "", ?_⟩
          dsimp only
          rw [if_neg hp, hn]

/-- C8: merge is atomic: every input pair either fully succeeds, returning the
merged table and the key, or fails on one of the two failure paths (no-key or
load error), and on both failure paths the returned Python value contains no
table at all. -/
theorem claim_C8 (s1 s2 : String) :
    (∃ df k, (carregar_e_preparar_dados s1 s2).1 = .ok df k) ∨
    (containsTable (returnedValue (carregar_e_preparar_dados s1 s2).1) = false ∧
      ((carregar_e_preparar_dados s1 s2).1 = .noKey ∨
        ∃ e, (carregar_e_preparar_dados s1 s2).1 = .loadErr e)) := by
  rcases carregar_shape s1 s2 with ⟨df, k, h⟩ | h | ⟨e, h⟩
  · exact .inl ⟨df, k, by rw [h]⟩
  · exact .inr ⟨by rw [h]; rfl, .inl (by rw [h])⟩
  · exact .inr ⟨by rw [h]; rfl, .inr ⟨e, by rw [h]⟩⟩

/-- C9 (amended): the success path emits no user-facing message; each failure
path emits exactly the one `st.error` message of that path, and nothing
else is written. -/
theorem claim_C9_amended (s1 s2 : String) :
    ((∃ df k, (carregar_e_preparar_dados s1 s2).1 = .ok df k) →
      (carregar_e_preparar_dados s1 s2).2 = []) ∧
    ((carregar_e_preparar_dados s1 s2).1 = .noKey →
      (carregar_e_preparar_dados s1 s2).2 = [msgNoKey]) ∧
    (∀ e, (carregar_e_preparar_dados s1 s2).1 = .loadErr e →
      (carregar_e_preparar_dados s1 s2).2 = [msgLoad e]) := by
  rcases carregar_shape s1 s2 with ⟨df, k, h⟩ | h | ⟨e, h⟩ <;> rw [h]
  · exact ⟨fun _ => rfl, fun hc => MergeResult.noConfusion hc,
      fun e2 hc => MergeResult.noConfusion hc⟩
  · exact ⟨fun ⟨df, k, hc⟩ => MergeResult.noConfusion hc, fun _ => rfl,
      fun e2 hc => MergeResult.noConfusion hc⟩
  · refine ⟨fun ⟨df, k, hc⟩ => MergeResult.noConfusion hc,
      fun hc => MergeResult.noConfusion hc, fun e2 hc => ?_⟩
    injection hc with hh
    rw [hh]

/-- Witness for C9 (amended): on a concrete no-key input pair the emitted
messages are exactly the single no-key error message. -/
theorem claim_C9_amended_witness :
    (carregar_e_preparar_dados noShareH noShareI).2 = [msgNoKey] :=
  (claim_C9_amended noShareH noShareI).2.1 (by decide)

/-- Counterexample to C9 as stated: on a concrete input pair the failure path
does write a user-facing error message (the `st.error` call), so the emitted
message list is not empty. -/
theorem claim_C9_cex :
    (carregar_e_preparar_dados noShareH noShareI).2 ≠ [] ∧
    (carregar_e_preparar_dados noShareH noShareI).2 = [msgNoKey] := by
  refine ⟨by decide, by decide⟩

/-- C10: the no-key path returns the single value `None` while the exception
path returns the pair `(None, None)`; hence for every parsed input pair with
no shared candidate column the caller's two-value unpacking fails, instead of
receiving a structured `(None, None)`. -/
theorem claim_C10 (s1 s2 : String) (c i : DataFrame)
    (h1 : read_nf s1 = .ok c) (h2 : read_nf s2 = .ok i)
    (hno : ∀ col ∈ colunas_candidatas, ¬(col ∈ c.cols ∧ col ∈ i.cols)) :
    (carregar_e_preparar_dados s1 s2).1 = .noKey ∧
    returnedValue MergeResult.noKey = PyVal.pynone ∧
    (∀ e, returnedValue (MergeResult.loadErr e) = PyVal.tuple2 PyVal.pynone PyVal.pynone) ∧
    unpack2 (returnedValue (carregar_e_preparar_dados s1 s2).1) = none ∧
    (∀ e, unpack2 (returnedValue (MergeResult.loadErr e)) = some (PyVal.pynone, PyVal.pynone)) := by
  have hfk : findKey c i = none :=
    findKey_none c i fun hh =>
      hno "NÚMERO" (by unfold colunas_candidatas; exact List.mem_singleton.mpr rfl) hh
  have hres : carregar_e_preparar_dados s1 s2 = (.noKey, [msgNoKey]) := by
    unfold carregar_e_preparar_dados
    rw [h1]
    dsimp only
    rw [h2]
    dsimp only
    unfold prepareFromFrames
    rw [hfk]
    rfl
  exact ⟨by rw [hres], rfl, fun e => rfl, by rw [hres]; rfl, fun e => rfl⟩

/-- Witness for C10: a concrete no-shared-column pair lands on the no-key path
and its returned value cannot be unpacked into two values. -/
theorem claim_C10_witness :
    (carregar_e_preparar_dados noShareH noShareI).1 = MergeResult.noKey ∧
    unpack2 (returnedValue (carregar_e_preparar_dados noShareH noShareI).1) = none :=
  let h := claim_C10 noShareH noShareI noShareHdf noShareIdf (by decide) (by decide) (by decide)
  ⟨h.1, h.2.2.2.1⟩

/-- C2: the candidate list is exactly `["NÚMERO"]`; the join key is found
exactly when that name is a column of both tables, regardless of any other
shared column names, and every successful merge uses it as the key. -/
theorem claim_C2 (c i : DataFrame) :
    colunas_candidatas = ["NÚMERO"] ∧
    (("NÚMERO" ∈ c.cols ∧ "NÚMERO" ∈ i.cols) → findKey c i = some "NÚMERO") ∧
    (¬("NÚMERO" ∈ c.cols ∧ "NÚMERO" ∈ i.cols) → findKey c i = none) ∧
    (∀ df key ms, prepareFromFrames c i = (.ok df key, ms) → key = "NÚMERO") :=
  ⟨rfl, fun h => findKey_some c i h.1 h.2, findKey_none c i,
    fun df key ms h => (prepare_ok_inv c i df key ms h).1⟩

/-- Witness for C2: on concrete tables sharing the candidate and one more
column name, the discovered key is the candidate. -/
theorem claim_C2_witness : findKey kdC kdI = some "NÚMERO" :=
  (claim_C2 kdC kdI).2.1 (by decide)

/-- C3 (amended): when no candidate name is a column of both tables, merge
fails on the no-key path with no table in the returned value, and the
user-facing message names the example column names ChaveNF and ID_NF (not the
fixed candidate list). -/
theorem claim_C3_amended (c i : DataFrame)
    (h : ∀ col ∈ colunas_candidatas, ¬(col ∈ c.cols ∧ col ∈ i.cols)) :
    prepareFromFrames c i = (.noKey, [msgNoKey]) ∧
    returnedValue (prepareFromFrames c i).1 = PyVal.pynone ∧
    containsTable (returnedValue (prepareFromFrames c i).1) = false ∧
    mentions msgNoKey "ChaveNF" = true ∧
    mentions msgNoKey "ID_NF" = true := by
  have hfk : findKey c i = none :=
    findKey_none c i (h "NÚMERO" (by unfold colunas_candidatas; exact List.mem_singleton.mpr rfl))
  have hres : prepareFromFrames c i = (.noKey, [msgNoKey]) := by
    unfold prepareFromFrames
    rw [hfk]
    rfl
  exact ⟨hres, by rw [hres]; rfl, by rw [hres]; rfl, by decide, by decide⟩

/-- Witness for C3 (amended): concrete tables with no shared candidate column
land on the no-key path, and the message names ChaveNF. -/
theorem claim_C3_amended_witness :
    prepareFromFrames nkC nkI = (MergeResult.noKey, [msgNoKey]) ∧
    mentions msgNoKey "ChaveNF" = true :=
  let h := claim_C3_amended nkC nkI (by decide)
  ⟨h.1, h.2.2.2.1⟩

/-- Counterexample to C3 as stated: on a concrete no-shared-candidate pair the
merge does fail on the no-key path, but the user-facing message does not name
the candidate column NÚMERO (the only name in the fixed candidate list); it
names ChaveNF and ID_NF instead. -/
theorem claim_C3_cex :
    (∀ col ∈ colunas_candidatas, ¬(col ∈ nkC.cols ∧ col ∈ nkI.cols)) ∧
    (prepareFromFrames nkC nkI).1 = MergeResult.noKey ∧
    "NÚMERO" ∈ colunas_candidatas ∧
    mentions msgNoKey "NÚMERO" = false := by
  refine ⟨by decide, by decide, by decide, by decide⟩

/-- C1 (amended): for every pair of sources that parse successfully and whose
header key column holds pairwise distinct values, a successful merge returns
exactly one row per item row. -/
theorem claim_C1_amended (s1 s2 : String) (c i df : DataFrame) (key : String) (ms : List String)
    (h1 : read_nf s1 = .ok c) (h2 : read_nf s2 = .ok i)
    (hnd : (keyVals c "NÚMERO").Nodup)
    (hok : carregar_e_preparar_dados s1 s2 = (.ok df key, ms)) :
    df.rows.length = i.rows.length := by
  have hp : prepareFromFrames c i = (.ok df key, ms) := by
    rw [← hok]
    unfold carregar_e_preparar_dados
    rw [h1]
    dsimp only
    rw [h2]
  obtain ⟨hk, hc, hi, hms, c2, hn, hcols, hdf⟩ := prepare_ok_inv c i df key ms hp
  subst hk
  have hkv : keyVals c2 "NÚMERO" = keyVals c "NÚMERO" :=
    normalizeDates_ok_keyVals c c2 "NÚMERO" hn (by decide) (by decide)
  have hnd2 : (keyVals c2 "NÚMERO").Nodup := by rw [hkv]; exact hnd
  rw [hdf]
  unfold mergeLeft
  dsimp only
  apply length_catMapRows_of_one
  intro r hr
  cases hm : rowMatches c2 "NÚMERO" (getCellAux i.cols r "NÚMERO") with
  | nil => rfl
  | cons m mtl =>
    simp only [List.length_map]
    have hle : (m :: mtl).length ≤ 1 := by
      rw [← hm]
      unfold rowMatches
      exact length_filter_le_one c2.rows (fun x => getCellAux c2.cols x "NÚMERO") _ hnd2
    simp only [List.length_cons] at hle ⊢
    omega

/-- Witness for C1 (amended): a concrete duplicate-free pair merges into as
many rows as the items table has. -/
theorem claim_C1_amended_witness : uniMdf.rows.length = uniIdf.rows.length :=
  claim_C1_amended uniH uniI uniHdf uniIdf uniMdf "NÚMERO" []
    (by decide) (by decide) (by decide) (by decide)

/-- Counterexample to C1 as stated: with two header rows sharing the key value
1, both sources parse, the items table has one row, and the merged table has
two rows — the row count of the merged table is not independent of the header
match count. -/
theorem claim_C1_cex :
    (read_nf dupH).toOption.isSome = true ∧
    (read_nf dupI).toOption.map (fun d => d.rows.length) = some 1 ∧
    (mergedOf (carregar_e_preparar_dados dupH dupI).1).map (fun d => d.rows.length) = some 2 := by
  refine ⟨by decide, by decide, by decide⟩

/-- C4: in every successful merge, an item row whose key value matches no
header row still appears in the merged table, padded with missing values, and
every header-only attribute of that padded row reads as missing. -/
theorem claim_C4 (c i df : DataFrame) (key : String) (ms : List String)
    (hwf : WF i)
    (hok : prepareFromFrames c i = (.ok df key, ms))
    (r : List Cell) (hr : r ∈ i.rows)
    (hnom : ∀ v ∈ keyVals c key, v ≠ getCellAux i.cols r key) :
    ((r ++ List.replicate (c.cols.filter fun x => decide (x ≠ key)).length Cell.na) ∈ df.rows) ∧
    (∀ col ∈ c.cols, col ∉ i.cols → col ≠ key →
      getCell df (r ++ List.replicate (c.cols.filter fun x => decide (x ≠ key)).length Cell.na) col
        = Cell.na) := by
  obtain ⟨hk, hc, hi, hms, c2, hn, hcols, hdf⟩ := prepare_ok_inv c i df key ms hok
  have hkeyE : key ≠ "DataEmissao" := by rw [hk]; decide
  have hkeyN : key ≠ "DataEntrada" := by rw [hk]; decide
  have hkv : keyVals c2 key = keyVals c key := normalizeDates_ok_keyVals c c2 key hn hkeyE hkeyN
  have hnom2 : ∀ hrow ∈ c2.rows, ¬(getCellAux c2.cols hrow key = getCellAux i.cols r key) := by
    intro hrow hhrow heq
    have hmem : getCellAux c2.cols hrow key ∈ keyVals c2 key := List.mem_map_of_mem _ hhrow
    rw [hkv] at hmem
    exact hnom _ hmem heq
  have hmatches : rowMatches c2 key (getCellAux i.cols r key) = [] := by
    unfold rowMatches
    rw [List.filter_eq_nil_iff]
    intro x hx
    simp only [decide_eq_true_eq]
    exact hnom2 x hx
  have hfilter : c2.cols.filter (fun x => decide (x ≠ key)) = c.cols.filter (fun x => decide (x ≠ key)) := by
    rw [hcols]
  have hrowlen : r.length = i.cols.length := hwf r hr
  constructor
  · rw [hdf]
    unfold mergeLeft
    dsimp only
    apply mem_catMapRows _ _ r _ hr
    rw [hmatches]
    rw [← hfilter]
    exact List.mem_singleton.mpr rfl
  · intro col hcol hcoli hcolkey
    rw [hdf]
    unfold getCell mergeLeft
    dsimp only
    rw [getCellAux_append_right i.cols _ r _ col hcoli hrowlen]
    apply getCellAux_all_na
    intro x hx
    exact List.eq_of_mem_replicate hx

/-- Witness for C4: a concrete unmatched item row survives the merge padded
with a missing supplier attribute. -/
theorem claim_C4_witness :
    (([Cell.str "2", Cell.str "G"] ++
      List.replicate ((umC.cols.filter fun x => decide (x ≠ "NÚMERO")).length) Cell.na) ∈ umM.rows) :=
  (claim_C4 umC umI umM "NÚMERO" [] (by decide) (by decide)
    [Cell.str "2", Cell.str "G"] (by decide) (by decide)).1

/-- C6: in every successful merge the present recognized date columns of the
header table were converted to date-like values before joining; and whenever
a key was found and a present recognized date column holds a textual value
that does not parse as a date, the merge fails on the exception path. -/
theorem claim_C6 (c i df : DataFrame) (key : String) (ms : List String) :
    (prepareFromFrames c i = (.ok df key, ms) →
      ∃ c2, normalizeDates c = .ok c2 ∧ df = mergeLeft i c2 key ∧
        ∀ col, (col = "DataEmissao" ∨ col = "DataEntrada") → col ∈ c.cols →
          ∀ row ∈ c2.rows, isDateLike (getCell c2 row col) = true) ∧
    (∀ col, (col = "DataEmissao" ∨ col = "DataEntrada") → col ∈ c.cols →
      (∃ row ∈ c.rows, ∃ s, getCell c row col = Cell.str s ∧ parseDate s = none) →
      pyFalsy (findKey c i) = false →
      isLoadErr (prepareFromFrames c i).1 = true ∧
        mergedOf (prepareFromFrames c i).1 = none) := by
  constructor
  · intro hok
    obtain ⟨hk, hc, hi, hms, c2, hn, hcols, hdf⟩ := prepare_ok_inv c i df key ms hok
    exact ⟨c2, hn, hdf, fun col hcol hmem => normalizeDates_ok_dateLike c c2 col hn hcol hmem⟩
  · intro col hcol hmem hbad hpf
    obtain ⟨e, he⟩ := normalizeDates_error_of_bad c col hcol hmem hbad
    have hres : prepareFromFrames c i = (.loadErr e, [msgLoad e]) := by
      unfold prepareFromFrames
      dsimp only
      rw [hpf]
      simp only [Bool.false_eq_true, if_false]
      rw [he]
    rw [hres]
    exact ⟨rfl, rfl⟩

/-- Witness for C6: a concrete header with an unparseable `DataEmissao` value
makes the merge land on the exception path with no table. -/
theorem claim_C6_witness :
    isLoadErr (prepareFromFrames bdC bdI).1 = true ∧
    mergedOf (prepareFromFrames bdC bdI).1 = none :=
  (claim_C6 bdC bdI { cols := [], rows := [] } "" []).2 "DataEmissao" (Or.inl rfl)
    (by decide) ⟨[Cell.str "1", Cell.str "bad"], by decide, "bad", by decide, by decide⟩
    (by decide)

/-- Counterexample to C5 as stated: the code does not parse with comma as the
decimal separator — a field `1.5` becomes a numeric cell under the code's
parse, while a comma-decimal parse of the same source leaves it a raw
string. -/
theorem claim_C5_cex : ¬ ∀ s : String, read_nf s = parseCSV ',' ',' s := by
  intro hall
  have h1 : isNumCell (firstCellOf (read_nf decProbe) "A") = true := by decide
  rw [hall decProbe] at h1
  have h2 : firstCellOf (parseCSV ',' ',' decProbe) "A" = Cell.str "1.5" := by decide
  rw [h2] at h1
  exact absurd h1 (by decide)

/-- C5 (amended): both sources are parsed as delimited text with comma as the
field separator and the period as the decimal separator: the header line and
the fields split on commas, a field `1.5` is numeric under the code's parse
but not under a comma-decimal parse, and a comma inside a lone data field is
taken as a field separator — the row `2,5` under the single header `V` splits
into an implicit index 2 and the value 5, never the decimal number 2.5. -/
theorem claim_C5_amended :
    (∀ s : String, read_nf s = parseCSV ',' '.' s) ∧
    (read_nf "A,B\x0ax,y").toOption.map DataFrame.cols = some ["A", "B"] ∧
    firstCellOf (read_nf "A,B\x0ax,y") "A" = Cell.str "x" ∧
    firstCellOf (read_nf "A,B\x0ax,y") "B" = Cell.str "y" ∧
    isNumCell (firstCellOf (read_nf decProbe) "A") = true ∧
    firstCellOf (parseCSV ',' ',' decProbe) "A" = Cell.str "1.5" ∧
    (read_nf "V\x0a2,5").toOption.map DataFrame.cols = some ["V"] ∧
    firstCellOf (read_nf "V\x0a2,5") "V" = Cell.numv 5 := by
  refine ⟨fun s => rfl, by decide, by decide, by decide, by decide, by decide, by decide,
    by decide⟩

/-- C7: on the concrete scenario of the spec the discovered key is NÚMERO, the
merged table has exactly two rows, the Widget row carries supplier ACME and
the Gadget row carries a missing supplier. -/
theorem claim_C7 :
    keyOf (carregar_e_preparar_dados scenH scenI).1 = some "NÚMERO" ∧
    (mergedOf (carregar_e_preparar_dados scenH scenI).1).map (fun d => d.rows.length) = some 2 ∧
    cellAt (carregar_e_preparar_dados scenH scenI).1 0 "Produto" = Cell.str "Widget" ∧
    cellAt (carregar_e_preparar_dados scenH scenI).1 0 "Fornecedor" = Cell.str "ACME" ∧
    cellAt (carregar_e_preparar_dados scenH scenI).1 1 "Produto" = Cell.str "Gadget" ∧
    cellAt (carregar_e_preparar_dados scenH scenI).1 1 "Fornecedor" = Cell.na := by
  refine ⟨by decide, by decide, by decide, by decide, by decide, by decide⟩

end AgenteNF
